import Mathlib

/-!
Verification development for the sqlite-online repository.

The embedded code comes from two source files:
  * `src/lib/sqlite.ts` — the engine-adapter helpers (`getTableNames`,
    `getTableSchema`, `mapQueryResults`, `arrayToCSV`, `exportTableAsCSV`,
    `exportAllTablesAsCSV`);
  * the worker protocol handler (`self.onmessage`) and the `App` component's
    remote-fetch fallback (`fetchDatabase` / `handleRetryWithProxy`).

JavaScript runtime features that the claims depend on are modelled
explicitly: a JS object built by key assignment is an association list with
insert-or-update semantics (`assocSet`), a missing property reads as
`undefined` (`CellVal.jsUndefined`), template-literal interpolation is
`renderCell`, and a thrown value is either an `Error` instance (possibly a
`CustomQueryError`) or a non-`Error` value (`Thrown`).
-/

/-- A scalar cell value as produced by the sql.js engine, extended with the
JavaScript `undefined` value that an out-of-range index or a missing object
property reads as. -/
inductive CellVal where
  | s (v : String)
  | n (v : Int)
  | null
  | jsUndefined
deriving DecidableEq

/-- JavaScript string coercion `String(x)` as used by template literals and
object-key coercion. -/
def renderCell : CellVal → String
  | .s v => v
  | .n v => toString v
  | .null => "null"
  | .jsUndefined => "undefined"

/-- A row object (`TableRow` in the source): a JS object mapping column
names to values, modelled as an association list with unique keys maintained
by `assocSet`. -/
abbrev TableRow := List (String × CellVal)

/-- JS object property read `obj[k]`: the first (and, for objects built by
`assocSet`, only) binding of `k`. -/
def assocLookup {α : Type} : List (String × α) → String → Option α
  | [], _ => none
  | (k', v) :: rest, k => if k' = k then some v else assocLookup rest k

/-- JS object property assignment `obj[k] = v`: update in place when the key
exists (the key keeps its insertion position), append otherwise. -/
def assocSet {α : Type} : List (String × α) → String → α → List (String × α)
  | [], k, v => [(k, v)]
  | (k', v') :: rest, k, v =>
      if k' = k then (k', v) :: rest else (k', v') :: assocSet rest k v

/-- Property read with JS semantics: a missing property is `undefined`. -/
def objRead (row : TableRow) (k : String) : CellVal :=
  (assocLookup row k).getD .jsUndefined

/-- One result set as returned by sql.js `Database.exec`: an ordered column
list and the value tuples. -/
structure QueryExecResult where
  columns : List String
  values : List (List CellVal)
deriving DecidableEq

/-- The body of `columns.reduce((acc, col, index) => { acc[col] = row[index];
return acc; }, {})` in `mapQueryResults`: walk the columns with their index,
assigning `row[index]` (or `undefined` past the end) under each column name. -/
def buildRowGo (vrow : List CellVal) : Nat → TableRow → List String → TableRow
  | _, acc, [] => acc
  | i, acc, col :: rest =>
      buildRowGo vrow (i + 1) (assocSet acc col (vrow.getD i .jsUndefined)) rest

/-- The row object `mapQueryResults` builds for one value tuple. -/
def buildRow (columns : List String) (vrow : List CellVal) : TableRow :=
  buildRowGo vrow 0 [] columns

/-- `mapQueryResults` from `src/lib/sqlite.ts`: uses only `result[0]`; an
empty result list yields empty data and columns. -/
def mapQueryResults (result : List QueryExecResult) : List TableRow × List String :=
  match result with
  | r :: _ => (r.values.map (buildRow r.columns), r.columns)
  | [] => ([], [])

/-- The body of `getTableNames`: `result[0]?.values.map((row) => row[0] as
string) || []` — read the first result set when present, else the empty
list. -/
def tableNamesOfResult (result : List QueryExecResult) : List String :=
  match result with
  | r :: _ => r.values.map (fun row => renderCell (row.getD 0 .jsUndefined))
  | [] => []

/-- The opaque database engine as `src/lib/sqlite.ts` uses it: `exec(sql)`
either returns result sets or throws (an `Error` whose message is a
string). -/
structure Db where
  run : String → Except String (List QueryExecResult)

/-- The fixed query `getTableNames` executes. -/
def tableNamesQuery : String :=
  "SELECT name FROM sqlite_master WHERE type='table';"

/-- `getTableNames` from `src/lib/sqlite.ts`: runs the master-table query;
its `catch` turns any failure into the empty list. -/
def getTableNames (db : Db) : List String :=
  match db.run tableNamesQuery with
  | .ok result => tableNamesOfResult result
  | .error _ => []

/-- `arrayToCSV` from `src/lib/sqlite.ts`: header is the raw column names
joined by commas; every data field is `"${row[col]}"` — wrapped in double
quotes with NO escaping of embedded quotes; lines joined by newlines. -/
def arrayToCSV (columns : List String) (rows : List TableRow) : String :=
  let header := String.intercalate "," columns
  let csvRows := rows.map (fun row =>
    String.intercalate "," (columns.map (fun col =>
      "\"" ++ renderCell (objRead row col) ++ "\"")))
  String.intercalate "\n" (header :: csvRows)

/-- The shared body of `exportTableAsCSV` and of each `exportAllTablesAsCSV`
iteration: run `SELECT * FROM <name>`; an empty result list is an error
(`Table <name> is empty or does not exist.`); otherwise serialize via
`mapQueryResults` and `arrayToCSV`. An engine throw propagates. -/
def exportTableCore (db : Db) (tableName : String) : Except String String :=
  match db.run ("SELECT * FROM " ++ tableName) with
  | .error e => .error e
  | .ok [] => .error ("Table " ++ tableName ++ " is empty or does not exist.")
  | .ok (r :: rest) =>
      let mapped := mapQueryResults (r :: rest)
      .ok (arrayToCSV mapped.2 mapped.1)

/-- `exportTableAsCSV` from `src/lib/sqlite.ts`: looks up the table name by
index (`tableNames[tableIndex]` reads as `undefined` out of range, which the
template literal renders as the string `undefined`); its `catch` logs and
RETHROWS, so the failure reaches the caller. -/
def exportTableAsCSV (db : Db) (tableIndex : Nat) : Except String String :=
  exportTableCore db ((getTableNames db).getD tableIndex "undefined")

/-- `exportAllTablesAsCSV` from `src/lib/sqlite.ts`: a `forEach` over all
table names whose body is wrapped in `try { ... } catch { console.error }` —
a failing table contributes no download but the loop continues. The `Except`
layer records whether an exception escapes the whole function. -/
def exportAllTablesAsCSV (db : Db) : Except String (List (Option String)) :=
  (getTableNames db).foldlM
    (fun acc tableName =>
      match exportTableCore db tableName with
      | .ok csv => Except.ok (acc ++ [some csv])
      | .error _ => Except.ok (acc ++ [none]))
    []

/-- A JavaScript thrown value as the worker classifies it: a plain `Error`,
a `CustomQueryError` (an `Error` subclass defined in the worker's engine
adapter), or any non-`Error` value. -/
inductive Thrown where
  | err (msg : String)
  | customQueryErr (msg : String)
  | nonError
deriving DecidableEq

/-- `x instanceof Error`. -/
def Thrown.isErrorInstance : Thrown → Bool
  | .err _ => true
  | .customQueryErr _ => true
  | .nonError => false

/-- `error.message` (reading `.message` off a non-`Error` value gives
`undefined`; the worker never does so). -/
def Thrown.message : Thrown → String
  | .err m => m
  | .customQueryErr m => m
  | .nonError => "undefined"

/-- Modelled from the spec: the worker imports the engine-adapter class
`Sqlite` from a module that is not under `src/` (only `src/lib/sqlite.ts`,
a different module, is). This structure records the interface exactly as the
worker's `self.onmessage` call sites use it — fields `tablesSchema`,
`indexesSchema`, `firstTable` and methods `getTableData`, `exec` (returning
`(results, doTablesChanged)` per spec section 4.1), `download`, `update`,
`delete`, `insert`, `getTableAsCsv`, `getCurrentDataAsCsv` — with every
method's behavior left abstract (any result or any thrown value). Filters
and sorters are opaque payload tokens the handler merely forwards. -/
structure SqliteInstance where
  tablesSchema : String
  indexesSchema : String
  firstTable : Option String
  getTableData : String → Nat → Nat → String → String →
    Except Thrown (List TableRow × Nat)
  exec : String → Except Thrown (List TableRow × Bool)
  download : Unit → Except Thrown (List Nat)
  update : String → List String → List CellVal → CellVal → Except Thrown Unit
  delete : String → CellVal → Except Thrown Unit
  insert : String → List String → List CellVal → Except Thrown Unit
  getTableAsCsv : String → Except Thrown String
  getCurrentDataAsCsv : String → Nat → Nat → String → String →
    Except Thrown String

/-- The worker's incoming command messages (`WorkerEvent`), one constructor
per `action` tag with its payload fields. `exportCsv` embeds the `export`
action. -/
inductive WorkerAction where
  | init
  | openFile (file : List Nat)
  | refresh (currentTable : String) (limit offset : Nat) (filters sorters : String)
  | exec (query currentTable : String) (limit offset : Nat) (filters sorters : String)
  | getTableData (currentTable : String) (limit offset : Nat) (filters sorters : String)
  | download
  | update (table : String) (columns : List String) (values : List CellVal)
      (primaryValue : CellVal)
  | delete (table : String) (primaryValue : CellVal)
  | insert (table : String) (columns : List String) (values : List CellVal)
  | exportCsv (table filters sorters : String) (limit offset : Nat)
      (exportType : String)
deriving DecidableEq

/-- The worker's outgoing response messages, one constructor per posted
`action` tag with its payload. -/
inductive Response where
  | initComplete (tableSchema indexSchema : String) (currentTable : Option String)
  | queryError (message : String) (isCustomQueryError : Bool)
  | queryComplete (results : List TableRow) (maxSize : Nat)
  | customQueryComplete (results : List TableRow)
  | updateInstance (tableSchema indexSchema : String)
  | downloadComplete (bytes : List Nat)
  | updateComplete (typ : String)
  | insertComplete
  | exportComplete (results : String)
deriving DecidableEq

/-- The outer `catch` of `self.onmessage`: an `Error` instance is reported
with its message and `isCustomQueryError = error instanceof
CustomQueryError`; anything else is reported as `Unknown error` / `false`. -/
def errResponse : Thrown → Response
  | .err m => .queryError m false
  | .customQueryErr m => .queryError m true
  | .nonError => .queryError "Unknown error" false

/-- The body of the inner `try` of the `exec` case: run the user query; on
`doTablesChanged` post `updateInstance`; otherwise post the custom-query
rows when non-empty, else fall back to a windowed read of the current
table. A throw from `instance.exec` or from the fallback
`instance.getTableData` escapes to the inner `catch`. -/
def execCase (inst : SqliteInstance) (query currentTable : String)
    (limit offset : Nat) (filters sorters : String) :
    Except Thrown (List Response) :=
  match inst.exec query with
  | .error t => .error t
  | .ok (results, doTablesChanged) =>
      if doTablesChanged then
        .ok [.updateInstance inst.tablesSchema inst.indexesSchema]
      else if results.length > 0 then
        .ok [.customQueryComplete results]
      else
        match inst.getTableData currentTable limit offset filters sorters with
        | .error t => .error t
        | .ok (results2, maxSize) => .ok [.queryComplete results2 maxSize]

/-- The `try { switch ... }` body of `self.onmessage` for a non-`init`
action once the instance is known to be present. Returns the new instance
and the posted responses, or the value that escapes to the outer `catch`.
The `exec` case applies its inner `catch` here: an `Error` instance is
rethrown wrapped as `CustomQueryError(error.message)`, a non-`Error` value
is swallowed (no rethrow, no response). -/
def dispatchReady (inst : SqliteInstance)
    (openFn : List Nat → Except Thrown SqliteInstance) :
    WorkerAction → Except Thrown (SqliteInstance × List Response)
  | .init => .ok (inst, [])
  | .openFile file =>
      match openFn file with
      | .error t => .error t
      | .ok newInst =>
          .ok (newInst, [.initComplete newInst.tablesSchema
            newInst.indexesSchema newInst.firstTable])
  | .refresh currentTable limit offset filters sorters =>
      match inst.getTableData currentTable limit offset filters sorters with
      | .error t => .error t
      | .ok (results, maxSize) => .ok (inst, [.queryComplete results maxSize])
  | .exec query currentTable limit offset filters sorters =>
      match execCase inst query currentTable limit offset filters sorters with
      | .ok responses => .ok (inst, responses)
      | .error t =>
          if t.isErrorInstance then .error (.customQueryErr t.message)
          else .ok (inst, [])
  | .getTableData currentTable limit offset filters sorters =>
      match inst.getTableData currentTable limit offset filters sorters with
      | .error t => .error t
      | .ok (results, maxSize) => .ok (inst, [.queryComplete results maxSize])
  | .download =>
      match inst.download () with
      | .error t => .error t
      | .ok bytes => .ok (inst, [.downloadComplete bytes])
  | .update table columns values primaryValue =>
      match inst.update table columns values primaryValue with
      | .error t => .error t
      | .ok _ => .ok (inst, [.updateComplete "updated"])
  | .delete table primaryValue =>
      match inst.delete table primaryValue with
      | .error t => .error t
      | .ok _ => .ok (inst, [.updateComplete "deleted"])
  | .insert table columns values =>
      match inst.insert table columns values with
      | .error t => .error t
      | .ok _ => .ok (inst, [.insertComplete])
  | .exportCsv table filters sorters limit offset exportType =>
      match (if exportType = "table" then inst.getTableAsCsv table
             else inst.getCurrentDataAsCsv table limit offset filters sorters) with
      | .error t => .error t
      | .ok results => .ok (inst, [.exportComplete results])

/-- `self.onmessage`. `createFn` and `openFn` stand for `Sqlite.create()`
and `Sqlite.open(bytes)` of the missing adapter class. The `init` action is
handled before the null-instance check and OUTSIDE the `try`, so a throw
from `Sqlite.create` escapes the handler (result `.error`); with a null
instance every other action is answered by the `Database is not
initialized` error; otherwise the switch body runs under the outer `catch`,
which posts exactly one `queryError` and keeps the current instance. -/
def onmessage (createFn : Except Thrown SqliteInstance)
    (openFn : List Nat → Except Thrown SqliteInstance)
    (state : Option SqliteInstance) (msg : WorkerAction) :
    Except Thrown (Option SqliteInstance × List Response) :=
  match msg with
  | .init =>
      match createFn with
      | .error t => .error t
      | .ok newInst =>
          .ok (some newInst, [.initComplete newInst.tablesSchema
            newInst.indexesSchema newInst.firstTable])
  | m =>
      match state with
      | none => .ok (none, [.queryError "Database is not initialized" false])
      | some inst =>
          match dispatchReady inst openFn m with
          | .ok (newInst, responses) => .ok (some newInst, responses)
          | .error t => .ok (some inst, [errResponse t])

/-- One column's entry in the schema object `getTableSchema` builds:
`{ type, isPrimaryKey, isForeignKey }`. The raw `row[2]` value is stored
unchanged (the TS `as string` cast performs no runtime coercion). -/
structure ColMeta where
  declType : CellVal
  isPrimaryKey : Bool
  isForeignKey : Bool
deriving DecidableEq

/-- `(row[5] as number) === 1` — strict equality, true only for the number 1. -/
def pkFlag : CellVal → Bool
  | .n 1 => true
  | _ => false

/-- The `reduce` of `getTableSchema` over `tableInfoResult[0].values`: for
each PRAGMA `table_info` row, assign under key `row[1]` (object-key
coercion) the entry built from `row[2]` and `row[5]`, with `isForeignKey`
initialized to `false`. -/
def buildCols (infoValues : List (List CellVal)) : List (String × ColMeta) :=
  infoValues.foldl
    (fun acc row =>
      assocSet acc (renderCell (row.getD 1 .jsUndefined))
        ⟨row.getD 2 .jsUndefined, pkFlag (row.getD 5 .jsUndefined), false⟩)
    []

/-- The assignment `.isForeignKey = true` performed on an existing entry. -/
def setFkTrue (e : ColMeta) : ColMeta :=
  { e with isForeignKey := true }

/-- One iteration of the foreign-key pass: `if (tableSchema[columnName])
{ tableSchema[columnName].isForeignKey = true; }` — only an existing entry
is mutated. -/
def markFk (schema : List (String × ColMeta)) (columnName : String) :
    List (String × ColMeta) :=
  if (assocLookup schema columnName).isSome then
    schema.map (fun p =>
      if p.1 = columnName then (p.1, setFkTrue p.2) else p)
  else schema

/-- The column names `row[3]` listed by `PRAGMA foreign_key_list`, read from
the first result set when one exists (the guard
`if (foreignKeyInfoResult.length > 0)`). -/
def fkColumnNames (fkInfoResult : List QueryExecResult) : List String :=
  match fkInfoResult with
  | r :: _ => r.values.map (fun row => renderCell (row.getD 3 .jsUndefined))
  | [] => []

/-- `getTableSchema` from `src/lib/sqlite.ts`, as a function of the two
PRAGMA results: `tableInfoResult[0].values` (an empty `exec` result makes
the property access throw, rethrown by the `catch`) reduced into the column
map, then each foreign-key column name marked when present. -/
def getTableSchema (tableInfoResult fkInfoResult : List QueryExecResult) :
    Except String (List (String × ColMeta)) :=
  match tableInfoResult with
  | [] => .error "Failed to get schema"
  | r :: _ =>
      .ok ((fkColumnNames fkInfoResult).foldl markFk (buildCols r.values))

/-- The `App` component state touched by `fetchDatabase` and
`handleRetryWithProxy` (`fetchError`, `showDialog`, `urlToFetch`,
`isFetching`, plus whether a database was successfully loaded). -/
structure AppState where
  fetchError : Option String
  showDialog : Bool
  urlToFetch : Option String
  isFetching : Bool
  dbLoaded : Bool
deriving DecidableEq

/-- How one `fetchDatabase` attempt can end: the `fetch` promise rejects
(network/CORS failure), the response arrives with `!response.ok` (HTTP
failure), `loadDatabase` throws on the downloaded bytes, or everything
succeeds. -/
inductive FetchOutcome where
  | fetchRejected (msg : String)
  | httpNotOk
  | loadFailed (msg : String)
  | success
deriving DecidableEq

/-- The message of the `Error` the `try` body throws for each failing
outcome (`!response.ok` throws `new Error("URL not found or invalid")`). -/
def outcomeMessage : FetchOutcome → String
  | .fetchRejected m => m
  | .httpNotOk => "URL not found or invalid"
  | .loadFailed m => m
  | .success => ""

/-- `fetchDatabase` from `App.tsx`: the `catch` runs for EVERY failing
outcome — including the `Error` thrown on `!response.ok` — and on a direct
attempt (`useProxy = false`) records the URL and opens the retry dialog,
while on a proxy attempt it sets `fetchError`; the `finally` clears
`isFetching`. -/
def fetchDatabase (url : String) (useProxy : Bool) (outcome : FetchOutcome)
    (st : AppState) : AppState :=
  let st := { st with isFetching := true }
  match outcome with
  | .success =>
      { st with fetchError := none, dbLoaded := true, isFetching := false }
  | o =>
      if useProxy then
        { st with
            fetchError := some ("Error whilefetching, " ++ outcomeMessage o)
            isFetching := false }
      else
        { st with
            urlToFetch := some url
            showDialog := true
            isFetching := false }

/-- `handleRetryWithProxy` from `App.tsx`: when a URL was recorded, rerun
`fetchDatabase` on it with `useProxy = true` and close the dialog. -/
def handleRetryWithProxy (outcome : FetchOutcome) (st : AppState) : AppState :=
  match st.urlToFetch with
  | some url => { fetchDatabase url true outcome st with showDialog := false }
  | none => st

/-! ### Association-list lemmas (JS object semantics) -/

theorem assocLookup_assocSet {α : Type} (acc : List (String × α)) (k' k : String)
    (v : α) :
    assocLookup (assocSet acc k' v) k =
      if k' = k then some v else assocLookup acc k := by
  induction acc with
  | nil => simp [assocSet, assocLookup]
  | cons p rest ih =>
      obtain ⟨a, b⟩ := p
      by_cases hak : a = k'
      · subst hak
        simp only [assocSet, if_pos rfl, assocLookup]
        by_cases h : a = k
        · subst h; simp
        · simp [h, assocLookup]
      · simp only [assocSet, if_neg hak, assocLookup]
        by_cases h : a = k
        · subst h
          have : ¬ (k' = a) := fun hh => hak hh.symm
          simp [this]
        · simp [h, ih]

theorem buildRowGo_lookup_notmem (vrow : List CellVal) (cols : List String)
    (i : Nat) (acc : TableRow) (k : String) (h : k ∉ cols) :
    assocLookup (buildRowGo vrow i acc cols) k = assocLookup acc k := by
  induction cols generalizing i acc with
  | nil => rfl
  | cons c rest ih =>
      have hck : c ≠ k := fun hh => h (hh ▸ List.mem_cons_self c rest)
      have hkrest : k ∉ rest := fun hh => h (List.mem_cons_of_mem c hh)
      simp only [buildRowGo]
      rw [ih _ _ hkrest, assocLookup_assocSet, if_neg hck]

theorem buildRowGo_lookup_nodup (vrow : List CellVal) :
    ∀ (cols : List String), cols.Nodup → ∀ (i : Nat) (acc : TableRow)
      (j : Nat) (hj : j < cols.length),
      assocLookup (buildRowGo vrow i acc cols) (cols.get ⟨j, hj⟩) =
        some (vrow.getD (i + j) .jsUndefined) := by
  intro cols
  induction cols with
  | nil => intro _ i acc j hj; exact absurd hj (Nat.not_lt_zero j)
  | cons c rest ih =>
      intro hnd i acc j hj
      rcases List.nodup_cons.mp hnd with ⟨hc, hrest⟩
      match j with
      | 0 =>
          simp only [List.get, buildRowGo]
          rw [buildRowGo_lookup_notmem _ _ _ _ _ hc, assocLookup_assocSet,
            if_pos rfl, Nat.add_zero]
      | Nat.succ j' =>
          have hj' : j' < rest.length := Nat.lt_of_succ_lt_succ hj
          simp only [List.get, buildRowGo]
          rw [ih hrest (i + 1) _ j' hj']
          have harith : i + 1 + j' = i + (j' + 1) := by omega
          rw [harith]

/-! ### Claim theorems -/

/-- Claim C10 (confirmed): when the engine returns more than one result set,
`mapQueryResults` and the table-name extraction of `getTableNames` read only
the first result set — every later result set is discarded. -/
theorem c10_first_result_set_only (r : QueryExecResult)
    (rest : List QueryExecResult) :
    mapQueryResults (r :: rest) = mapQueryResults [r] ∧
    tableNamesOfResult (r :: rest) = tableNamesOfResult [r] :=
  ⟨rfl, rfl⟩

/-- A result set whose two columns carry the same name, as
`SELECT 1 AS a, 2 AS a` would produce. -/
def resDup : List QueryExecResult :=
  [⟨["a", "a"], [[CellVal.s "x", CellVal.s "y"]]⟩]

/-- Claim C7 counterexample: with duplicate column names the produced row
does NOT map the i-th column name to the i-th value — on columns
`["a", "a"]` with values `["x", "y"]`, the 0-th column name `a` reads back
`y` (the later assignment overwrote it), not the 0-th value `x`, and the
row object has a single key. -/
theorem c7_counterexample :
    (mapQueryResults resDup).2 = ["a", "a"] ∧
    (mapQueryResults resDup).1 = [[("a", CellVal.s "y")]] ∧
    objRead ((mapQueryResults resDup).1.headD []) "a" ≠ CellVal.s "x" := by
  refine ⟨rfl, rfl, ?_⟩
  decide

/-- Claim C7 (amended): each produced row maps a column name to the value at
the LAST position of that name in the column list, so when the column names
are pairwise distinct (the case for well-formed result sets) the row is
exactly the zip of columns with the value tuple — the i-th column name reads
back the i-th value (`undefined` past the end of the tuple); the returned
column list is the first result set's column list unchanged; an empty
result list produces empty rows and columns. -/
theorem c7_rows_zip_columns (r : QueryExecResult) (rest : List QueryExecResult)
    (hnd : r.columns.Nodup) :
    (mapQueryResults (r :: rest)).2 = r.columns ∧
    (mapQueryResults (r :: rest)).1 = r.values.map (buildRow r.columns) ∧
    (∀ vrow ∈ r.values, ∀ (j : Nat) (hj : j < r.columns.length),
      objRead (buildRow r.columns vrow) (r.columns.get ⟨j, hj⟩) =
        vrow.getD j .jsUndefined) ∧
    mapQueryResults ([] : List QueryExecResult) = ([], []) := by
  refine ⟨rfl, rfl, ?_, rfl⟩
  intro vrow _ j hj
  unfold objRead buildRow
  rw [buildRowGo_lookup_nodup vrow r.columns hnd 0 [] j hj]
  simp

/-- Witness for C7's amended theorem at a concrete result set. -/
theorem c7_rows_zip_columns_witness :
    objRead (buildRow ["a", "b"] [CellVal.s "1", CellVal.s "2"]) "b" =
      CellVal.s "2" := by
  have h :=
    (c7_rows_zip_columns ⟨["a", "b"], [[CellVal.s "1", CellVal.s "2"]]⟩ []
      (by decide)).2.2.1 [CellVal.s "1", CellVal.s "2"] (by decide) 1
      (by decide)
  simpa using h

/-- Double every embedded double quote of a field, per the claim's
"embedded double quotes escaped by doubling". -/
def doubleQuotes (f : String) : String :=
  String.mk (f.data.foldr
    (fun c acc => if c = '\"' then '\"' :: '\"' :: acc else c :: acc) [])

/-- A CSV field as claim C5 describes it: wrapped in double quotes with
embedded double quotes escaped by doubling. -/
def csvEscapedField (f : String) : String :=
  "\"" ++ doubleQuotes f ++ "\""

/-- The CSV text claim C5 describes: a header row of the column names
followed by one line per row, fields comma-separated, every value field
quote-wrapped with embedded quotes doubled, lines joined by newlines. -/
def csvClaimC5 (columns : List String) (rows : List TableRow) : String :=
  String.intercalate "\n"
    (String.intercalate "," columns ::
      rows.map (fun row =>
        String.intercalate ","
          (columns.map (fun col => csvEscapedField (renderCell (objRead row col))))))

/-- A one-table database whose single cell value contains an embedded double
quote. -/
def dbQuote : Db :=
  ⟨fun q =>
    if q = "SELECT * FROM t" then
      .ok [⟨["a"], [[CellVal.s "x\"y"]]⟩]
    else .error "no such table"⟩

/-- Claim C5 counterexample: exporting a table whose cell value is `x"y`
produces `a` then `"x"y"` — the embedded double quote is NOT doubled (and
the header is not quoted), so the produced CSV differs from the
quote-doubling format the claim describes. -/
theorem c5_counterexample :
    exportTableCore dbQuote "t" = .ok "a\n\"x\"y\"" ∧
    "a\n\"x\"y\"" ≠ csvClaimC5 ["a"] [[("a", CellVal.s "x\"y")]] := by
  constructor
  · rfl
  · decide

/-- A value field as the code actually produces it: `"${row[col]}"` —
quote-wrapped, NO escaping of embedded quotes. -/
def csvPlainQuotedField (f : String) : String :=
  "\"" ++ f ++ "\""

/-- The CSV text of the amended claim C5: unquoted header of column names
joined by commas, then one line per row of comma-separated quote-wrapped
(unescaped) value fields, lines joined by newlines. -/
def csvAmendedC5 (columns : List String) (rows : List TableRow) : String :=
  String.intercalate "\n"
    (String.intercalate "," columns ::
      rows.map (fun row =>
        String.intercalate ","
          (columns.map (fun col => csvPlainQuotedField (renderCell (objRead row col))))))

/-- Claim C5 (amended): for every exported table the produced CSV text is a
header row of the column names in schema order joined by commas (not
quoted), followed by one line per row with each field comma-separated and
wrapped in double quotes WITHOUT escaping embedded double quotes, lines
joined by newlines. -/
theorem c5_csv_format (db : Db) (tableName : String) (r : QueryExecResult)
    (rest : List QueryExecResult)
    (h : db.run ("SELECT * FROM " ++ tableName) = .ok (r :: rest)) :
    exportTableCore db tableName =
      .ok (csvAmendedC5 r.columns (r.values.map (buildRow r.columns))) ∧
    (∀ columns rows, arrayToCSV columns rows = csvAmendedC5 columns rows) := by
  constructor
  · simp only [exportTableCore, h, mapQueryResults]
    rfl
  · intro columns rows
    rfl

/-- Witness for C5's amended theorem at the concrete database `dbQuote`. -/
theorem c5_csv_format_witness :
    exportTableCore dbQuote "t" =
      .ok (csvAmendedC5 ["a"] [[("a", CellVal.s "x\"y")]]) :=
  (c5_csv_format dbQuote "t" ⟨["a"], [[CellVal.s "x\"y"]]⟩ [] rfl).1

/-- The `App` component's initial state. -/
def initialAppState : AppState :=
  ⟨none, false, none, false, false⟩

/-- Claim C8 counterexample: an HTTP failure of the direct fetch (the
response arrives but `!response.ok`) DOES trigger the user-confirmed proxy
retry — the thrown `URL not found or invalid` error lands in the same
`catch`, which records the URL and opens the retry dialog, exactly as for a
network failure. The claim's carve-out ("but not an HTTP failure") does not
hold. -/
theorem c8_counterexample :
    (fetchDatabase "https://example.com/a.db" false .httpNotOk
        initialAppState).showDialog = true ∧
    (fetchDatabase "https://example.com/a.db" false .httpNotOk
        initialAppState).urlToFetch = some "https://example.com/a.db" :=
  ⟨rfl, rfl⟩

/-- Claim C8 (amended): EVERY failure of the direct fetch attempt — network
failure, HTTP (non-ok) failure, or a database-load failure — triggers the
user-confirmed retry of the same URL through the CORS-relay proxy (the
dialog opens and the URL is recorded, with no error reported yet); the
confirmed retry makes exactly one proxy attempt, and a failure of that
proxy attempt is reported as an error with the dialog closed and no further
retry offered. -/
theorem c8_proxy_fallback (url : String) (st : AppState) (o : FetchOutcome)
    (h : o ≠ .success) :
    ((fetchDatabase url false o st).showDialog = true ∧
     (fetchDatabase url false o st).urlToFetch = some url ∧
     (fetchDatabase url false o st).fetchError = st.fetchError) ∧
    ((fetchDatabase url true o st).fetchError =
        some ("Error whilefetching, " ++ outcomeMessage o) ∧
     (fetchDatabase url true o st).showDialog = st.showDialog ∧
     (fetchDatabase url true o st).urlToFetch = st.urlToFetch) ∧
    (∀ st', st'.urlToFetch = some url →
      (handleRetryWithProxy o st').showDialog = false ∧
      (handleRetryWithProxy o st').fetchError =
        some ("Error whilefetching, " ++ outcomeMessage o)) := by
  cases o with
  | success => exact absurd rfl h
  | fetchRejected m =>
      refine ⟨⟨rfl, rfl, rfl⟩, ⟨rfl, rfl, rfl⟩, ?_⟩
      intro st' hst'
      simp [handleRetryWithProxy, hst', fetchDatabase]
  | httpNotOk =>
      refine ⟨⟨rfl, rfl, rfl⟩, ⟨rfl, rfl, rfl⟩, ?_⟩
      intro st' hst'
      simp [handleRetryWithProxy, hst', fetchDatabase]
  | loadFailed m =>
      refine ⟨⟨rfl, rfl, rfl⟩, ⟨rfl, rfl, rfl⟩, ?_⟩
      intro st' hst'
      simp [handleRetryWithProxy, hst', fetchDatabase]

/-- Witness for C8's amended theorem: the direct HTTP failure opens the
dialog, and the confirmed proxy retry failing reports the error with the
dialog closed. -/
theorem c8_proxy_fallback_witness :
    (fetchDatabase "https://example.com/a.db" false .httpNotOk
        initialAppState).showDialog = true ∧
    (handleRetryWithProxy (.fetchRejected "Failed to fetch")
        (fetchDatabase "https://example.com/a.db" false .httpNotOk
          initialAppState)).showDialog = false ∧
    (handleRetryWithProxy (.fetchRejected "Failed to fetch")
        (fetchDatabase "https://example.com/a.db" false .httpNotOk
          initialAppState)).fetchError =
      some "Error whilefetching, Failed to fetch" := by
  have h1 := (c8_proxy_fallback "https://example.com/a.db" initialAppState
    .httpNotOk (by decide)).1.1
  have h2 := ((c8_proxy_fallback "https://example.com/a.db"
    (fetchDatabase "https://example.com/a.db" false .httpNotOk
      initialAppState) (.fetchRejected "Failed to fetch")) (by decide)).2.2
    (fetchDatabase "https://example.com/a.db" false .httpNotOk
      initialAppState) rfl
  exact ⟨h1, h2.1, h2.2⟩

/-- A concrete engine-adapter instance whose every method succeeds
trivially. -/
def instStub : SqliteInstance where
  tablesSchema := "tablesSchema0"
  indexesSchema := "indexesSchema0"
  firstTable := some "t1"
  getTableData := fun _ _ _ _ _ => .ok ([], 0)
  exec := fun _ => .ok ([], false)
  download := fun _ => .ok []
  update := fun _ _ _ _ => .ok ()
  delete := fun _ _ => .ok ()
  insert := fun _ _ _ => .ok ()
  getTableAsCsv := fun _ => .ok ""
  getCurrentDataAsCsv := fun _ _ _ _ _ => .ok ""

/-- A `Sqlite.create` that succeeds. -/
def createOk : Except Thrown SqliteInstance := .ok instStub

/-- A `Sqlite.open` that succeeds on any bytes. -/
def openOk : List Nat → Except Thrown SqliteInstance := fun _ => .ok instStub

/-- Claim C1 counterexample: in the Uninitialized state (no instance) an
`openFile` command is NOT accepted — even though `Sqlite.open` would
succeed, the null-instance guard answers it with the `Database is not
initialized` error and the handler stays Uninitialized. Only `init` passes
that guard, because only `init` is dispatched before it. -/
theorem c1_counterexample :
    onmessage createOk openOk none (.openFile [1, 2, 3]) =
      .ok (none, [.queryError "Database is not initialized" false]) :=
  rfl

/-- Claim C1 (amended): in the Uninitialized state the handler accepts
exactly the `init` command; every other command — `openFile` included —
fails immediately with the non-fatal `Database is not initialized` error
response (`isCustomQueryError = false`) and the handler remains
Uninitialized, while `init` (when `Sqlite.create` succeeds) installs the
new instance and answers with the schema snapshot. -/
theorem c1_uninitialized_accepts_only_init
    (createFn : Except Thrown SqliteInstance)
    (openFn : List Nat → Except Thrown SqliteInstance)
    (msg : WorkerAction) (h : msg ≠ .init) :
    onmessage createFn openFn none msg =
      .ok (none, [.queryError "Database is not initialized" false]) ∧
    (∀ newInst, createFn = .ok newInst →
      onmessage createFn openFn none .init =
        .ok (some newInst, [.initComplete newInst.tablesSchema
          newInst.indexesSchema newInst.firstTable])) := by
  constructor
  · cases msg with
    | init => exact absurd rfl h
    | openFile file => rfl
    | refresh ct l o f s => rfl
    | exec q ct l o f s => rfl
    | getTableData ct l o f s => rfl
    | download => rfl
    | update tb c v pv => rfl
    | delete tb pv => rfl
    | insert tb c v => rfl
    | exportCsv tb f s l o et => rfl
  · intro newInst hc
    simp [onmessage, hc]

/-- Witness for C1's amended theorem at the `download` command. -/
theorem c1_uninitialized_witness :
    onmessage createOk openOk none .download =
      .ok (none, [.queryError "Database is not initialized" false]) :=
  (c1_uninitialized_accepts_only_init createOk openOk .download
    (by simp)).1

/-- Every successful run of the `exec` case body posts exactly one
response. -/
theorem execCase_ok_singleton (inst : SqliteInstance) (q ct : String)
    (l o : Nat) (f s : String) (rs : List Response)
    (h : execCase inst q ct l o f s = .ok rs) : ∃ r, rs = [r] := by
  unfold execCase at h
  cases hx : inst.exec q with
  | error t => rw [hx] at h; exact absurd h (by simp)
  | ok p =>
      obtain ⟨results, changed⟩ := p
      rw [hx] at h
      by_cases hch : changed = true
      · rw [hch] at h
        simp only [if_pos rfl] at h
        exact ⟨_, (Except.ok.injEq _ _ ▸ h).symm⟩
      · have hch' : changed = false := by
          cases changed
          · rfl
          · exact absurd rfl hch
        rw [hch'] at h
        simp only [Bool.false_eq_true, if_neg] at h
        by_cases hlen : results.length > 0
        · rw [if_pos hlen] at h
          exact ⟨_, (Except.ok.injEq _ _ ▸ h).symm⟩
        · rw [if_neg hlen] at h
          cases hg : inst.getTableData ct l o f s with
          | error t => rw [hg] at h; exact absurd h (by simp)
          | ok p2 =>
              obtain ⟨results2, maxSize⟩ := p2
              rw [hg] at h
              exact ⟨_, (Except.ok.injEq _ _ ▸ h).symm⟩

/-- An adapter instance whose `exec` throws a non-`Error` value (in JS any
value can be thrown, e.g. `throw "boom"`). -/
def instNonErrorThrow : SqliteInstance :=
  { instStub with exec := fun _ => .error .nonError }

/-- Claim C2 counterexample: an `exec` command whose effect throws a
non-`Error` value receives ZERO response messages — the inner catch of the
`exec` case rethrows only `Error` instances and silently swallows anything
else, so the handler finishes without posting. -/
theorem c2_counterexample :
    onmessage createOk openOk (some instNonErrorThrow)
        (.exec "DROP TABLE t" "t" 10 0 "filters0" "sorters0") =
      .ok (some instNonErrorThrow, []) :=
  rfl

/-- Claim C2 (amended): every command message receives AT MOST one response
message, and exactly one except in two cases that receive none: an `init`
whose `Sqlite.create` throws (the throw escapes the handler uncaught,
because `init` is dispatched outside the `try`), and an `exec` during whose
handling a non-`Error` value is thrown (the inner catch swallows it). -/
theorem c2_exactly_one_response (createFn : Except Thrown SqliteInstance)
    (openFn : List Nat → Except Thrown SqliteInstance)
    (state : Option SqliteInstance) (msg : WorkerAction) :
    (∃ st' r, onmessage createFn openFn state msg = .ok (st', [r])) ∨
    (msg = .init ∧ ∃ t, createFn = .error t ∧
      onmessage createFn openFn state msg = .error t) ∨
    (∃ inst q ct l o f s, state = some inst ∧ msg = .exec q ct l o f s ∧
      execCase inst q ct l o f s = .error .nonError ∧
      onmessage createFn openFn state msg = .ok (some inst, [])) := by
  cases msg with
  | init =>
      cases hc : createFn with
      | error t => exact Or.inr (Or.inl ⟨rfl, t, rfl, by simp [onmessage, hc]⟩)
      | ok newInst =>
          exact Or.inl ⟨some newInst, .initComplete newInst.tablesSchema
            newInst.indexesSchema newInst.firstTable, by simp [onmessage, hc]⟩
  | openFile file =>
      cases state with
      | none => exact Or.inl ⟨none, _, rfl⟩
      | some inst =>
          cases ho : openFn file with
          | error t =>
              exact Or.inl ⟨some inst, errResponse t,
                by simp [onmessage, dispatchReady, ho]⟩
          | ok newInst =>
              exact Or.inl ⟨some newInst, .initComplete newInst.tablesSchema
                newInst.indexesSchema newInst.firstTable,
                by simp [onmessage, dispatchReady, ho]⟩
  | refresh ct l o f s =>
      cases state with
      | none => exact Or.inl ⟨none, _, rfl⟩
      | some inst =>
          cases hg : inst.getTableData ct l o f s with
          | error t =>
              exact Or.inl ⟨some inst, errResponse t,
                by simp [onmessage, dispatchReady, hg]⟩
          | ok p =>
              exact Or.inl ⟨some inst, .queryComplete p.1 p.2,
                by simp [onmessage, dispatchReady, hg]⟩
  | exec q ct l o f s =>
      cases state with
      | none => exact Or.inl ⟨none, _, rfl⟩
      | some inst =>
          cases he : execCase inst q ct l o f s with
          | ok rs =>
              obtain ⟨r, hr⟩ := execCase_ok_singleton inst q ct l o f s rs he
              subst hr
              exact Or.inl ⟨some inst, r, by simp [onmessage, dispatchReady, he]⟩
          | error t =>
              cases t with
              | err m =>
                  exact Or.inl ⟨some inst, .queryError m true,
                    by simp [onmessage, dispatchReady, he, Thrown.isErrorInstance,
                      errResponse, Thrown.message]⟩
              | customQueryErr m =>
                  exact Or.inl ⟨some inst, .queryError m true,
                    by simp [onmessage, dispatchReady, he, Thrown.isErrorInstance,
                      errResponse, Thrown.message]⟩
              | nonError =>
                  exact Or.inr (Or.inr ⟨inst, q, ct, l, o, f, s, rfl, rfl, he,
                    by simp [onmessage, dispatchReady, he, Thrown.isErrorInstance]⟩)
  | getTableData ct l o f s =>
      cases state with
      | none => exact Or.inl ⟨none, _, rfl⟩
      | some inst =>
          cases hg : inst.getTableData ct l o f s with
          | error t =>
              exact Or.inl ⟨some inst, errResponse t,
                by simp [onmessage, dispatchReady, hg]⟩
          | ok p =>
              exact Or.inl ⟨some inst, .queryComplete p.1 p.2,
                by simp [onmessage, dispatchReady, hg]⟩
  | download =>
      cases state with
      | none => exact Or.inl ⟨none, _, rfl⟩
      | some inst =>
          cases hd : inst.download () with
          | error t =>
              exact Or.inl ⟨some inst, errResponse t,
                by simp [onmessage, dispatchReady, hd]⟩
          | ok bytes =>
              exact Or.inl ⟨some inst, .downloadComplete bytes,
                by simp [onmessage, dispatchReady, hd]⟩
  | update tb c v pv =>
      cases state with
      | none => exact Or.inl ⟨none, _, rfl⟩
      | some inst =>
          cases hu : inst.update tb c v pv with
          | error t =>
              exact Or.inl ⟨some inst, errResponse t,
                by simp [onmessage, dispatchReady, hu]⟩
          | ok u =>
              exact Or.inl ⟨some inst, .updateComplete "updated",
                by simp [onmessage, dispatchReady, hu]⟩
  | delete tb pv =>
      cases state with
      | none => exact Or.inl ⟨none, _, rfl⟩
      | some inst =>
          cases hu : inst.delete tb pv with
          | error t =>
              exact Or.inl ⟨some inst, errResponse t,
                by simp [onmessage, dispatchReady, hu]⟩
          | ok u =>
              exact Or.inl ⟨some inst, .updateComplete "deleted",
                by simp [onmessage, dispatchReady, hu]⟩
  | insert tb c v =>
      cases state with
      | none => exact Or.inl ⟨none, _, rfl⟩
      | some inst =>
          cases hu : inst.insert tb c v with
          | error t =>
              exact Or.inl ⟨some inst, errResponse t,
                by simp [onmessage, dispatchReady, hu]⟩
          | ok u =>
              exact Or.inl ⟨some inst, .insertComplete,
                by simp [onmessage, dispatchReady, hu]⟩
  | exportCsv tb f s l o et =>
      cases state with
      | none => exact Or.inl ⟨none, _, rfl⟩
      | some inst =>
          cases hx : (if et = "table" then inst.getTableAsCsv tb
              else inst.getCurrentDataAsCsv tb l o f s) with
          | error t =>
              exact Or.inl ⟨some inst, errResponse t,
                by simp only [onmessage, dispatchReady, hx]⟩
          | ok results =>
              exact Or.inl ⟨some inst, .exportComplete results,
                by simp only [onmessage, dispatchReady, hx]⟩

/-- Claim C3 (confirmed): for an `exec` command on a Ready handler, with the
engine adapter's `exec` reporting `(results, doTablesChanged)`: when the
statement changed table/index definitions the single response is the schema
snapshot (`updateInstance`); otherwise, when the statement produced a
non-empty result set, the single response carries those query-result rows
(`customQueryComplete`); otherwise the single response is the windowed read
of the request's current table with its limit, offset, filters and sorters
(`queryComplete` with rows and maxSize). -/
theorem c3_exec_routing (createFn : Except Thrown SqliteInstance)
    (openFn : List Nat → Except Thrown SqliteInstance)
    (inst : SqliteInstance) (q ct : String) (l o : Nat) (f s : String)
    (results : List TableRow) (changed : Bool)
    (h : inst.exec q = .ok (results, changed)) :
    (changed = true →
      onmessage createFn openFn (some inst) (.exec q ct l o f s) =
        .ok (some inst,
          [.updateInstance inst.tablesSchema inst.indexesSchema])) ∧
    (changed = false → results ≠ [] →
      onmessage createFn openFn (some inst) (.exec q ct l o f s) =
        .ok (some inst, [.customQueryComplete results])) ∧
    (changed = false → results = [] →
      ∀ rows maxSize, inst.getTableData ct l o f s = .ok (rows, maxSize) →
        onmessage createFn openFn (some inst) (.exec q ct l o f s) =
          .ok (some inst, [.queryComplete rows maxSize])) := by
  refine ⟨?_, ?_, ?_⟩
  · intro hch
    subst hch
    simp [onmessage, dispatchReady, execCase, h]
  · intro hch hne
    subst hch
    have hlen : results.length > 0 := List.length_pos.mpr hne
    simp [onmessage, dispatchReady, execCase, h, hlen]
  · intro hch hres rows maxSize hg
    subst hch
    subst hres
    simp [onmessage, dispatchReady, execCase, h, hg]

/-- An adapter whose `exec` returns one result row without a schema
change. -/
def instSelect : SqliteInstance :=
  { instStub with exec := fun _ => .ok ([[("1", CellVal.n 1)]], false) }

/-- Witness for C3 on the non-empty-result branch. -/
theorem c3_exec_routing_witness :
    onmessage createOk openOk (some instSelect)
        (.exec "SELECT 1" "t" 10 0 "filters0" "sorters0") =
      .ok (some instSelect, [.customQueryComplete [[("1", CellVal.n 1)]]]) :=
  (c3_exec_routing createOk openOk instSelect "SELECT 1" "t" 10 0 "filters0"
    "sorters0" [[("1", CellVal.n 1)]] false rfl).2.1 rfl (by simp)

/-- An adapter where the user statement succeeds as a mutation (no result
rows, no schema change) but the fallback windowed read then throws a plain
internal `Error`. -/
def instFallbackErr : SqliteInstance :=
  { instStub with
      exec := fun _ => .ok ([], false)
      getTableData := fun _ _ _ _ _ => .error (.err "disk I/O error") }

/-- Claim C4 counterexample: the exact same internal failure — the engine
adapter's `getTableData` throwing a plain `Error "disk I/O error"`, not the
user's SQL — is reported with `isCustomQueryError = true` when it happens
inside the `exec` case's fallback read (the inner catch wraps EVERY `Error`
thrown in the `exec` case as a `CustomQueryError`), yet with `false` when
the identical call fails under a `refresh` command. So `isCustomQueryError`
is not true only for failures originating from the user-authored SQL. -/
theorem c4_counterexample :
    onmessage createOk openOk (some instFallbackErr)
        (.exec "INSERT INTO t VALUES (1)" "t" 10 0 "filters0" "sorters0") =
      .ok (some instFallbackErr, [.queryError "disk I/O error" true]) ∧
    onmessage createOk openOk (some instFallbackErr)
        (.refresh "t" 10 0 "filters0" "sorters0") =
      .ok (some instFallbackErr, [.queryError "disk I/O error" false]) :=
  ⟨rfl, rfl⟩

/-- Claim C4 (amended): every `Error` instance thrown during the effect of
a command OTHER THAN `init` on a Ready handler is caught at the protocol
boundary and converted into exactly one error response carrying the error's
message and a boolean `isCustomQueryError`; that boolean is true iff the
caught value is a `CustomQueryError`, and the `exec` case's inner catch
wraps EVERY `Error` thrown anywhere in its handling — the user's SQL or the
fallback windowed read alike — as a `CustomQueryError`, so it is reported
with `true`. Failures that are not `Error` instances are reported as
`Unknown error` with `false` for every command except `exec`, where they
are silently swallowed and produce no response at all. `init` is the one
command dispatched outside the `try`, so ANY value `Sqlite.create` throws —
`Error` or not — escapes the handler uncaught with no response (final
conjunct). -/
theorem c4_error_classification (createFn : Except Thrown SqliteInstance)
    (openFn : List Nat → Except Thrown SqliteInstance)
    (inst : SqliteInstance) :
    (∀ m, errResponse (.err m) = .queryError m false) ∧
    (∀ m, errResponse (.customQueryErr m) = .queryError m true) ∧
    (errResponse .nonError = .queryError "Unknown error" false) ∧
    (∀ file t, openFn file = .error t →
      onmessage createFn openFn (some inst) (.openFile file) =
        .ok (some inst, [errResponse t])) ∧
    (∀ ct l o f s t, inst.getTableData ct l o f s = .error t →
      onmessage createFn openFn (some inst) (.refresh ct l o f s) =
        .ok (some inst, [errResponse t]) ∧
      onmessage createFn openFn (some inst) (.getTableData ct l o f s) =
        .ok (some inst, [errResponse t])) ∧
    (∀ t, inst.download () = .error t →
      onmessage createFn openFn (some inst) .download =
        .ok (some inst, [errResponse t])) ∧
    (∀ tb c v pv t, inst.update tb c v pv = .error t →
      onmessage createFn openFn (some inst) (.update tb c v pv) =
        .ok (some inst, [errResponse t])) ∧
    (∀ tb pv t, inst.delete tb pv = .error t →
      onmessage createFn openFn (some inst) (.delete tb pv) =
        .ok (some inst, [errResponse t])) ∧
    (∀ tb c v t, inst.insert tb c v = .error t →
      onmessage createFn openFn (some inst) (.insert tb c v) =
        .ok (some inst, [errResponse t])) ∧
    (∀ tb f s l o et t,
      (if et = "table" then inst.getTableAsCsv tb
        else inst.getCurrentDataAsCsv tb l o f s) = .error t →
      onmessage createFn openFn (some inst) (.exportCsv tb f s l o et) =
        .ok (some inst, [errResponse t])) ∧
    (∀ q ct l o f s t, execCase inst q ct l o f s = .error t →
      onmessage createFn openFn (some inst) (.exec q ct l o f s) =
        .ok (some inst,
          if t.isErrorInstance then [.queryError t.message true] else [])) ∧
    (∀ (state : Option SqliteInstance) (t : Thrown), createFn = .error t →
      onmessage createFn openFn state .init = .error t) := by
  refine ⟨fun m => rfl, fun m => rfl, rfl, ?_, ?_, ?_, ?_, ?_, ?_, ?_, ?_, ?_⟩
  · intro file t ho
    simp [onmessage, dispatchReady, ho]
  · intro ct l o f s t hg
    constructor
    · simp [onmessage, dispatchReady, hg]
    · simp [onmessage, dispatchReady, hg]
  · intro t hd
    simp [onmessage, dispatchReady, hd]
  · intro tb c v pv t hu
    simp [onmessage, dispatchReady, hu]
  · intro tb pv t hu
    simp [onmessage, dispatchReady, hu]
  · intro tb c v t hu
    simp [onmessage, dispatchReady, hu]
  · intro tb f s l o et t hx
    simp only [onmessage, dispatchReady, hx]
  · intro q ct l o f s t he
    cases t with
    | err m =>
        simp [onmessage, dispatchReady, he, Thrown.isErrorInstance,
          errResponse, Thrown.message]
    | customQueryErr m =>
        simp [onmessage, dispatchReady, he, Thrown.isErrorInstance,
          errResponse, Thrown.message]
    | nonError =>
        simp [onmessage, dispatchReady, he, Thrown.isErrorInstance]
  · intro state t hc
    simp [onmessage, hc]

/-- An adapter whose windowed read throws a plain `Error "boom"`. -/
def instReadErr : SqliteInstance :=
  { instStub with getTableData := fun _ _ _ _ _ => .error (.err "boom") }

/-- Witness for C4's amended theorem on a failing `refresh`. -/
theorem c4_error_classification_witness :
    onmessage createOk openOk (some instReadErr)
        (.refresh "t" 1 0 "filters0" "sorters0") =
      .ok (some instReadErr, [errResponse (.err "boom")]) :=
  ((c4_error_classification createOk openOk instReadErr).2.2.2.2.1
    "t" 1 0 "filters0" "sorters0" (.err "boom") rfl).1

/-- The step function of the `reduce` in `getTableSchema`. -/
def buildColsStep (acc : List (String × ColMeta)) (row : List CellVal) :
    List (String × ColMeta) :=
  assocSet acc (renderCell (row.getD 1 .jsUndefined))
    ⟨row.getD 2 .jsUndefined, pkFlag (row.getD 5 .jsUndefined), false⟩

theorem buildCols_eq_foldl (infoValues : List (List CellVal)) :
    buildCols infoValues = infoValues.foldl buildColsStep [] :=
  rfl

theorem foldl_buildColsStep_isSome (infoValues : List (List CellVal)) :
    ∀ (acc : List (String × ColMeta)) (k : String),
      (assocLookup (infoValues.foldl buildColsStep acc) k).isSome ↔
        (assocLookup acc k).isSome ∨
          ∃ row ∈ infoValues, renderCell (row.getD 1 .jsUndefined) = k := by
  induction infoValues with
  | nil => intro acc k; simp
  | cons row rest ih =>
      intro acc k
      rw [List.foldl_cons, ih]
      have hset : (assocLookup (buildColsStep acc row) k).isSome ↔
          renderCell (row.getD 1 .jsUndefined) = k ∨ (assocLookup acc k).isSome := by
        unfold buildColsStep
        rw [assocLookup_assocSet]
        by_cases hk : renderCell (row.getD 1 .jsUndefined) = k
        · rw [if_pos hk]
          exact iff_of_true rfl (Or.inl hk)
        · rw [if_neg hk]
          constructor
          · exact fun h => Or.inr h
          · rintro (h | h)
            · exact absurd h hk
            · exact h
      rw [hset]
      constructor
      · rintro (⟨hk | hacc⟩ | ⟨row', hmem, hk⟩)
        · exact Or.inr ⟨row, List.mem_cons_self row rest, hk⟩
        · exact Or.inl hacc
        · exact Or.inr ⟨row', List.mem_cons_of_mem row hmem, hk⟩
      · rintro (hacc | ⟨row', hmem, hk⟩)
        · exact Or.inl (Or.inr hacc)
        · rcases List.mem_cons.mp hmem with hh | ht
          · exact Or.inl (Or.inl (hh ▸ hk))
          · exact Or.inr ⟨row', ht, hk⟩

theorem foldl_buildColsStep_flag_false (infoValues : List (List CellVal)) :
    ∀ (acc : List (String × ColMeta)),
      (∀ k e, assocLookup acc k = some e → e.isForeignKey = false) →
      ∀ k e, assocLookup (infoValues.foldl buildColsStep acc) k = some e →
        e.isForeignKey = false := by
  induction infoValues with
  | nil => intro acc hacc; exact hacc
  | cons row rest ih =>
      intro acc hacc
      rw [List.foldl_cons]
      apply ih
      intro k e he
      unfold buildColsStep at he
      rw [assocLookup_assocSet] at he
      by_cases hk : renderCell (row.getD 1 .jsUndefined) = k
      · rw [if_pos hk] at he
        cases he
        rfl
      · rw [if_neg hk] at he
        exact hacc k e he

theorem assocLookup_map_setFk (rest : List (String × ColMeta))
    (columnName k : String) :
    assocLookup (rest.map (fun p =>
        if p.1 = columnName then (p.1, setFkTrue p.2) else p)) k =
      (assocLookup rest k).map (fun e =>
        if k = columnName then setFkTrue e else e) := by
  induction rest with
  | nil => rfl
  | cons p rest ih =>
      obtain ⟨a, b⟩ := p
      simp only [List.map_cons]
      by_cases hac : a = columnName
      · rw [if_pos (show (a, b).1 = columnName from hac)]
        simp only [assocLookup]
        by_cases hak : a = k
        · have hkc : k = columnName := hak ▸ hac
          rw [if_pos (show a = k from hak), if_pos (show a = k from hak),
            Option.map_some', if_pos hkc]
        · rw [if_neg (show ¬ a = k from hak), if_neg (show ¬ a = k from hak),
            ih]
      · rw [if_neg (show ¬ (a, b).1 = columnName from hac)]
        simp only [assocLookup]
        by_cases hak : a = k
        · have hkc : ¬ k = columnName := fun h => hac (hak.symm ▸ h)
          rw [if_pos hak, if_pos hak, Option.map_some', if_neg hkc]
        · rw [if_neg hak, if_neg hak, ih]

theorem assocLookup_markFk (schema : List (String × ColMeta))
    (columnName k : String) :
    assocLookup (markFk schema columnName) k =
      (assocLookup schema k).map (fun e =>
        if k = columnName then setFkTrue e else e) := by
  unfold markFk
  by_cases hp : (assocLookup schema columnName).isSome
  · rw [if_pos hp, assocLookup_map_setFk]
  · rw [if_neg hp]
    by_cases hk : k = columnName
    · subst hk
      have hnone : assocLookup schema k = none :=
        Option.not_isSome_iff_eq_none.mp hp
      rw [hnone]
      rfl
    · cases h : assocLookup schema k with
      | none => rfl
      | some e => rw [Option.map_some', if_neg hk]

theorem foldl_markFk_lookup (names : List String) :
    ∀ (schema : List (String × ColMeta)) (k : String),
      assocLookup (names.foldl markFk schema) k =
        (assocLookup schema k).map (fun e =>
          if k ∈ names then setFkTrue e else e) := by
  induction names with
  | nil =>
      intro schema k
      cases h : assocLookup schema k <;> simp [h]
  | cons cn rest ih =>
      intro schema k
      rw [List.foldl_cons, ih, assocLookup_markFk]
      cases h : assocLookup schema k with
      | none => rfl
      | some e =>
          simp only [Option.map_some']
          by_cases hcn : k = cn <;> by_cases hr : k ∈ rest <;>
            simp [hcn, hr, setFkTrue]

/-- Claim C6 (confirmed): for every table, the schema map built by
`getTableSchema` has an entry for every column reported by
`PRAGMA table_info` — none is omitted — and that entry's `isForeignKey` is
true exactly when the column's name appears among the columns named by
`PRAGMA foreign_key_list` (defaulting to false otherwise); conversely the
map holds no entry beyond the column-metadata columns. -/
theorem c6_schema_merge (info : QueryExecResult)
    (rest fkInfoResult : List QueryExecResult)
    (schema : List (String × ColMeta))
    (h : getTableSchema (info :: rest) fkInfoResult = .ok schema) :
    (∀ row ∈ info.values,
      (assocLookup schema (renderCell (row.getD 1 .jsUndefined))).map
          ColMeta.isForeignKey =
        some (decide
          (renderCell (row.getD 1 .jsUndefined) ∈ fkColumnNames fkInfoResult))) ∧
    (∀ k, (assocLookup schema k).isSome →
      ∃ row ∈ info.values, renderCell (row.getD 1 .jsUndefined) = k) := by
  have hs : schema = (fkColumnNames fkInfoResult).foldl markFk
      (buildCols info.values) := by
    simp only [getTableSchema] at h
    exact (Except.ok.injEq _ _ ▸ h).symm
  subst hs
  constructor
  · intro row hrow
    have hsome : (assocLookup (buildCols info.values)
        (renderCell (row.getD 1 .jsUndefined))).isSome := by
      rw [buildCols_eq_foldl, foldl_buildColsStep_isSome]
      exact Or.inr ⟨row, hrow, rfl⟩
    obtain ⟨e0, he0⟩ := Option.isSome_iff_exists.mp hsome
    have hflag : e0.isForeignKey = false := by
      refine foldl_buildColsStep_flag_false info.values [] ?_ _ _
        (buildCols_eq_foldl info.values ▸ he0)
      intro k e he
      simp [assocLookup] at he
    rw [foldl_markFk_lookup, he0]
    simp only [Option.map_some']
    by_cases hmem :
        renderCell (row.getD 1 .jsUndefined) ∈ fkColumnNames fkInfoResult
    · rw [if_pos hmem, decide_eq_true hmem]
      rfl
    · rw [if_neg hmem, decide_eq_false hmem]
      exact congrArg some hflag
  · intro k hk
    rw [foldl_markFk_lookup] at hk
    have hsome : (assocLookup (buildCols info.values) k).isSome := by
      cases h0 : assocLookup (buildCols info.values) k with
      | none => rw [h0] at hk; simp at hk
      | some e => simp
    rw [buildCols_eq_foldl, foldl_buildColsStep_isSome] at hsome
    rcases hsome with habs | hex
    · simp [assocLookup] at habs
    · exact hex

/-- A concrete `PRAGMA table_info` result for a table
`users(id INTEGER PRIMARY KEY, owner INTEGER REFERENCES ...)`. -/
def infoW : QueryExecResult :=
  ⟨["cid", "name", "type", "notnull", "dflt_value", "pk"],
   [[CellVal.n 0, CellVal.s "id", CellVal.s "INTEGER", CellVal.n 1,
     CellVal.null, CellVal.n 1],
    [CellVal.n 1, CellVal.s "owner", CellVal.s "INTEGER", CellVal.n 0,
     CellVal.null, CellVal.n 0]]⟩

/-- A concrete `PRAGMA foreign_key_list` result naming column `owner`. -/
def fkW : List QueryExecResult :=
  [⟨["id", "seq", "table", "from", "to", "on_update", "on_delete", "match"],
    [[CellVal.n 0, CellVal.n 0, CellVal.s "users", CellVal.s "owner",
      CellVal.s "id", CellVal.s "NO ACTION", CellVal.s "NO ACTION",
      CellVal.s "NONE"]]⟩]

/-- The schema map `getTableSchema` produces for `infoW` and `fkW`. -/
def schemaW : List (String × ColMeta) :=
  [("id", ⟨CellVal.s "INTEGER", true, false⟩),
   ("owner", ⟨CellVal.s "INTEGER", false, true⟩)]

/-- Witness for C6 at the concrete `users` table: the `owner` column's entry
carries `isForeignKey = true`. -/
theorem c6_schema_merge_witness :
    (assocLookup schemaW "owner").map ColMeta.isForeignKey = some true := by
  have h := (c6_schema_merge infoW [] fkW schemaW rfl).1
    [CellVal.n 1, CellVal.s "owner", CellVal.s "INTEGER", CellVal.n 0,
      CellVal.null, CellVal.n 0]
    (by decide)
  exact h.trans (by decide)

/-- The step function of the `forEach` in `exportAllTablesAsCSV`, with the
per-table `try`/`catch` already applied. -/
def exportAllStep (db : Db) (acc : List (Option String)) (tableName : String) :
    Except String (List (Option String)) :=
  match exportTableCore db tableName with
  | .ok csv => Except.ok (acc ++ [some csv])
  | .error _ => Except.ok (acc ++ [none])

theorem exportAllTablesAsCSV_eq_foldlM (db : Db) :
    exportAllTablesAsCSV db = (getTableNames db).foldlM (exportAllStep db) [] :=
  rfl

theorem exceptOkBind {ε α β : Type} (a : α) (f : α → Except ε β) :
    (Except.ok a >>= f : Except ε β) = f a :=
  rfl

theorem exceptPure {ε α : Type} (a : α) :
    (pure a : Except ε α) = Except.ok a :=
  rfl

theorem exportAll_foldlM (db : Db) :
    ∀ (names : List String) (acc : List (Option String)),
      names.foldlM (exportAllStep db) acc =
        Except.ok (acc ++ names.map (fun n => (exportTableCore db n).toOption)) := by
  intro names
  induction names with
  | nil => intro acc; simp [List.foldlM, exceptPure]
  | cons n rest ih =>
      intro acc
      cases hx : exportTableCore db n with
      | ok csv =>
          simp [List.foldlM_cons, exportAllStep, hx, ih, Except.toOption,
            exceptOkBind]
      | error e =>
          simp [List.foldlM_cons, exportAllStep, hx, ih, Except.toOption,
            exceptOkBind]

/-- Claim C9 (confirmed): `exportAllTablesAsCSV` never throws — it always
finishes normally, producing one outcome per table in order, where a table
whose export fails (for example an empty or missing table) contributes no
CSV but every remaining table is still exported; by contrast
`exportTableAsCSV` rethrows the failure of its single table to the
caller. -/
theorem c9_export_error_isolation (db : Db) :
    exportAllTablesAsCSV db =
      .ok ((getTableNames db).map (fun n => (exportTableCore db n).toOption)) ∧
    (∀ tableIndex e,
      exportTableCore db ((getTableNames db).getD tableIndex "undefined") =
        .error e →
      exportTableAsCSV db tableIndex = .error e) := by
  constructor
  · rw [exportAllTablesAsCSV_eq_foldlM, exportAll_foldlM]
    rfl
  · intro tableIndex e h
    exact h

/-- A concrete database with an empty table `t1` (whose export fails) and a
populated table `t2`. -/
def dbW9 : Db :=
  ⟨fun q =>
    if q = tableNamesQuery then
      .ok [⟨["name"], [[CellVal.s "t1"], [CellVal.s "t2"]]⟩]
    else if q = "SELECT * FROM t1" then .ok []
    else if q = "SELECT * FROM t2" then .ok [⟨["a"], [[CellVal.s "v"]]⟩]
    else .error "no such table"⟩

/-- Witness for C9: `t1` fails (empty result) yet `t2` is still exported,
while the single-table export of `t1` propagates the error. -/
theorem c9_export_error_isolation_witness :
    exportAllTablesAsCSV dbW9 = .ok [none, some "a\n\"v\""] ∧
    exportTableAsCSV dbW9 0 = .error "Table t1 is empty or does not exist." := by
  have h := c9_export_error_isolation dbW9
  exact ⟨h.1.trans (by rfl), h.2 0 "Table t1 is empty or does not exist." rfl⟩
